import Mathlib

/-!
Shallow embedding of the worker-pool core of the repository
(`src/sdk-demo/include/sdk/threading/thread_pool.h` and
`src/sdk-demo/src/threading/thread_pool.cpp`) and proofs about it.

Modelling conventions:
* Timestamps (`std::chrono::system_clock::time_point`) are natural numbers of
  milliseconds; a default-constructed time point is `0`.
* `std::shared_ptr<TaskInfo>` aliasing is modelled with an explicit heap
  (`List TaskInfo`) and references (`Nat` indices into it): the queue wrapper
  `Task` and the registry `task_infos_` both hold references, exactly as the
  C++ objects both hold `shared_ptr`s to the same `TaskInfo`.
* `std::priority_queue<Task>` is modelled by its contents (a list) together
  with `popMax`, which removes a maximal element with respect to the
  comparator `Task::operator<`; this is the standard's contract for
  `top()`/`pop()` of a max-heap ordered by `operator<`.
* The user work unit submitted to the pool is modelled by its behaviour when
  invoked: it either returns a value or throws a C++ exception
  (`std::exception`-derived with a `what()` string, or an unknown one).
* `std::packaged_task<R()>::operator()` runs the stored callable and captures
  its return value or its exception into the shared state read through the
  future; the call itself returns normally to the caller.  This is embedded
  by `packagedTaskCall`.
* One iteration of the worker loop body (`ThreadPool::workerThread`,
  thread_pool.cpp lines 41-90) is the atomic step `workerStep`; the
  monotonic instants observed inside the iteration are passed as parameters.
-/

namespace Sdk

/-- `enum class TaskPriority` (thread_pool.h lines 17-22). -/
inductive TaskPriority where
  | LOW
  | NORMAL
  | HIGH
  | CRITICAL
deriving DecidableEq, Repr

/-- The underlying integral value of the `TaskPriority` enumerator
(`LOW = 0, NORMAL = 1, HIGH = 2, CRITICAL = 3`). -/
def TaskPriority.rank : TaskPriority → Nat
  | .LOW => 0
  | .NORMAL => 1
  | .HIGH => 2
  | .CRITICAL => 3

/-- `enum class TaskStatus` (thread_pool.h lines 25-31). -/
inductive TaskStatus where
  | PENDING
  | RUNNING
  | COMPLETED
  | FAILED
  | CANCELLED
deriving DecidableEq, Repr

/-- `struct TaskInfo` (thread_pool.h lines 34-42). -/
structure TaskInfo where
  id : String
  priority : TaskPriority
  status : TaskStatus
  submit_time : Nat
  start_time : Nat
  end_time : Nat
  error_message : String
deriving DecidableEq, Repr

instance : Inhabited TaskInfo :=
  ⟨{ id := "", priority := .NORMAL, status := .PENDING,
     submit_time := 0, start_time := 0, end_time := 0, error_message := "" }⟩

/-- `struct ThreadPoolStats` (thread_pool.h lines 45-53).  The running
average is a C++ `double`; it is embedded as an exact rational. -/
structure ThreadPoolStats where
  thread_count : Nat
  active_threads : Nat
  pending_tasks : Nat
  completed_tasks : Nat
  failed_tasks : Nat
  average_task_duration_ms : ℚ
  start_time : Nat
deriving DecidableEq, Repr

/-- A C++ exception thrown by user work: either derived from
`std::exception` with a `what()` text, or of an unknown type. -/
inductive Exn where
  | std (what : String)
  | unknown
deriving DecidableEq, Repr

/-- The behaviour of a user work closure when it is invoked: it returns an
integer value or throws. -/
inductive WorkResult where
  | ok (v : Int)
  | raise (e : Exn)
deriving DecidableEq, Repr

/-- The queue wrapper `struct Task` (thread_pool.h lines 126-140).
`infoRef` is the `shared_ptr<TaskInfo> info` member (a heap reference) and
`work` stands for the bound `packaged_task` captured by `function`.  Queued
tasks always have a non-null `function` (it is assigned in `submit`). -/
structure Task where
  id : String
  priority : TaskPriority
  submit_time : Nat
  infoRef : Nat
  work : WorkResult
deriving DecidableEq, Repr

/-- `Task::operator<` (thread_pool.h lines 134-139): compare the priority
enum values first; on a tie the later-submitted task is the smaller one, so
the earlier-submitted task sits higher in the max-heap. -/
def Task.lt (a b : Task) : Bool :=
  if a.priority.rank ≠ b.priority.rank then decide (a.priority.rank < b.priority.rank)
  else decide (b.submit_time < a.submit_time)

/-- Remove a maximal element (with respect to `Task.lt`) from the queue
contents: the element returned by `top()` of `std::priority_queue<Task>`
together with the remaining contents after `pop()`. -/
def popMax : List Task → Option (Task × List Task)
  | [] => none
  | t :: ts =>
    match popMax ts with
    | none => some (t, [])
    | some (m, rest) => if Task.lt t m then some (m, t :: rest) else some (t, ts)

/-- The registry `std::unordered_map<std::string, std::shared_ptr<TaskInfo>>`
as an association list from id to heap reference. -/
abbrev Registry := List (String × Nat)

/-- `map.find(id)`. -/
def regLookup : Registry → String → Option Nat
  | [], _ => none
  | (k, v) :: rest, id => if k = id then some v else regLookup rest id

/-- `map[id] = ref`: overwrite the binding when the key is present,
otherwise insert it. -/
def regInsert (reg : Registry) (id : String) (ref : Nat) : Registry :=
  if reg.any (fun p => p.1 = id) then
    reg.map (fun p => if p.1 = id then (id, ref) else p)
  else
    reg ++ [(id, ref)]

/-- The state of one `ThreadPool` object: its fields (thread_pool.h lines
152-168) plus the explicit heap of shared `TaskInfo` objects. -/
structure PoolState where
  heap : List TaskInfo
  tasks_ : List Task
  task_infos_ : Registry
  stop_ : Bool
  force_stop_ : Bool
  active_threads_ : Nat
  workers_ : Nat
  stats_ : ThreadPoolStats
deriving DecidableEq, Repr

/-- Dereference a `shared_ptr<TaskInfo>` held in the pool. -/
def heapGet (s : PoolState) (ref : Nat) : TaskInfo :=
  s.heap.getD ref default

namespace ThreadPool

/-- The constructor `ThreadPool::ThreadPool(size_t)` (thread_pool.cpp lines
13-29): it performs no validation of `thread_count`, zeroes the statistics
and spawns `thread_count` worker threads. -/
def init (thread_count : Nat) (t0 : Nat) : PoolState :=
  { heap := []
    tasks_ := []
    task_infos_ := []
    stop_ := false
    force_stop_ := false
    active_threads_ := 0
    workers_ := thread_count
    stats_ :=
      { thread_count := thread_count
        active_threads := 0
        pending_tasks := 0
        completed_tasks := 0
        failed_tasks := 0
        average_task_duration_ms := 0
        start_time := t0 } }

/-- The fresh `TaskInfo` minted by `submit` (thread_pool.h lines 194-198);
`start_time` and `end_time` are default-constructed time points. -/
def mkTaskInfo (task_id : String) (priority : TaskPriority) (now : Nat) : TaskInfo :=
  { id := task_id, priority := priority, status := .PENDING,
    submit_time := now, start_time := 0, end_time := 0, error_message := "" }

/-- `ThreadPool::submit(const std::string&, TaskPriority, F&&, Args&&...)`
(thread_pool.h lines 185-242).  Only `stop_` is checked (twice: before
allocating and again under the lock); `force_stop_` is never consulted.  The
wrapper task and the registry entry share the freshly allocated `TaskInfo`.
An `Except.error` models the thrown `std::runtime_error`; on a throw no
state has been mutated.  Returns the new state and the reference of the
fresh record. -/
def submit (s : PoolState) (task_id : String) (priority : TaskPriority)
    (work : WorkResult) (now : Nat) : Except String (PoolState × Nat) :=
  if s.stop_ then
    .error "ThreadPool is shutting down"
  else
    let task_info := mkTaskInfo task_id priority now
    if s.stop_ then
      .error "ThreadPool is shutting down"
    else
      let ref := s.heap.length
      let wrapper_task : Task :=
        { id := task_id, priority := priority, submit_time := task_info.submit_time,
          infoRef := ref, work := work }
      .ok ({ s with
              heap := s.heap ++ [task_info]
              tasks_ := s.tasks_ ++ [wrapper_task]
              task_infos_ := regInsert s.task_infos_ task_id ref }, ref)

/-- The call `(*task)()` of the `std::packaged_task` (thread_pool.h line
223): the user work runs, its value or exception is stored in the shared
state delivered through the future, and the call returns normally — a user
exception is NOT propagated to the caller. -/
def packagedTaskCall (work : WorkResult) : Except Exn Unit × WorkResult :=
  (Except.ok (), work)

/-- The lambda assigned to `wrapper_task.function` (thread_pool.h lines
218-234), acting on the `TaskInfo` it captured.  The `try`/`catch` mirrors
lines 222-231; `tStart` and `tEnd` are the two `now()` calls.  Returns the
updated record and the future content. -/
def wrapperFunction (work : WorkResult) (info : TaskInfo) (tStart tEnd : Nat) :
    TaskInfo × WorkResult :=
  let info := { info with status := .RUNNING, start_time := tStart }
  let (call, fut) := packagedTaskCall work
  let info :=
    match call with
    | .ok _ => { info with status := .COMPLETED }
    | .error (.std what) => { info with status := .FAILED, error_message := what }
    | .error .unknown => { info with status := .FAILED, error_message := "Unknown exception" }
  ({ info with end_time := tEnd }, fut)

/-- Execution of a dequeued task by the worker (thread_pool.cpp lines
68-86).  The worker writes `RUNNING`/`start_time`, invokes
`task.function()` — the wrapper lambda, which catches every exception and
therefore returns normally — and its own `try` consequently always takes
the success branch (line 74), writing `COMPLETED` and then `end_time`.
`tA`/`tD` are the worker's two `now()` calls, `tB`/`tC` the wrapper's. -/
def executeTask (work : WorkResult) (info : TaskInfo) (tA tB tC tD : Nat) :
    TaskInfo × WorkResult :=
  let info := { info with status := .RUNNING, start_time := tA }
  let (info, fut) := wrapperFunction work info tB tC
  let info := { info with status := .COMPLETED }
  let info := { info with end_time := tD }
  (info, fut)

/-- `ThreadPool::updateStats` (thread_pool.cpp lines 104-121).  Note that
the average is only touched when `end_time > start_time`, and that the
counter values used in the mean update are the already-incremented ones. -/
def updateStats (stats : ThreadPoolStats) (info : TaskInfo) : ThreadPoolStats :=
  let stats :=
    if info.status = .COMPLETED then
      { stats with completed_tasks := stats.completed_tasks + 1 }
    else if info.status = .FAILED then
      { stats with failed_tasks := stats.failed_tasks + 1 }
    else stats
  if info.start_time < info.end_time then
    let duration : ℚ := ((info.end_time - info.start_time : Nat) : ℚ)
    let total_duration : ℚ :=
      stats.average_task_duration_ms *
        ((stats.completed_tasks + stats.failed_tasks - 1 : Nat) : ℚ)
    { stats with
        average_task_duration_ms :=
          (total_duration + duration) /
            ((stats.completed_tasks + stats.failed_tasks : Nat) : ℚ) }
  else stats

/-- The outcome of one iteration of the worker loop. -/
inductive WorkerOutcome where
  | exited
  | ran (ref : Nat)
  | looped
deriving DecidableEq, Repr

/-- One iteration of the worker loop body (`ThreadPool::workerThread`,
thread_pool.cpp lines 41-90), entered when the condition variable wake-up
predicate holds.  The worker breaks when `(stop_ && tasks_.empty()) ||
force_stop_`; otherwise it pops the top task — WITHOUT consulting the
record's status — increments `active_threads_`, executes it, updates the
statistics and decrements `active_threads_`. -/
def workerStep (s : PoolState) (tA tB tC tD : Nat) : PoolState × WorkerOutcome :=
  if (s.stop_ && s.tasks_.isEmpty) || s.force_stop_ then
    (s, .exited)
  else
    match popMax s.tasks_ with
    | none => (s, .looped)
    | some (task, rest) =>
      let s := { s with tasks_ := rest, active_threads_ := s.active_threads_ + 1 }
      let info := heapGet s task.infoRef
      let (info, _fut) := executeTask task.work info tA tB tC tD
      let s := { s with heap := s.heap.set task.infoRef info }
      let s := { s with stats_ := updateStats s.stats_ info }
      let s := { s with active_threads_ := s.active_threads_ - 1 }
      (s, .ran task.infoRef)

/-- `ThreadPool::cancelTask` (thread_pool.cpp lines 151-161): look the id up
in the registry; if the record is `PENDING`, mark it `CANCELLED` and return
true.  The queue is not touched. -/
def cancelTask (s : PoolState) (task_id : String) : PoolState × Bool :=
  match regLookup s.task_infos_ task_id with
  | some ref =>
    if (heapGet s ref).status = .PENDING then
      ({ s with heap := s.heap.set ref { heapGet s ref with status := .CANCELLED } }, true)
    else (s, false)
  | none => (s, false)

/-- The drain loop of `cancelPendingTasks` (thread_pool.cpp lines 141-146):
pop each queued task in turn and mark its record `CANCELLED`. -/
def cancelLoop (ts : List Task) (h : List TaskInfo) : List TaskInfo :=
  ts.foldl
    (fun acc t => acc.set t.infoRef { acc.getD t.infoRef default with status := .CANCELLED })
    h

/-- `ThreadPool::cancelPendingTasks` (thread_pool.cpp lines 137-149): pop
every queued task, mark its record `CANCELLED`, and leave the queue empty. -/
def cancelPendingTasks (s : PoolState) : PoolState :=
  { s with heap := cancelLoop s.tasks_ s.heap, tasks_ := [] }

/-- `ThreadPool::shutdown` (thread_pool.cpp lines 227-242): set `stop_`,
broadcast, join every worker, clear `workers_`.  The task executions the
joined workers perform while draining are separate `workerStep` steps. -/
def shutdown (s : PoolState) : PoolState :=
  { s with stop_ := true, workers_ := 0 }

/-- `ThreadPool::forceShutdown` (thread_pool.cpp lines 244-259): set
`force_stop_`, broadcast, join every worker, clear `workers_`.  Neither the
queue nor any task record is touched. -/
def forceShutdown (s : PoolState) : PoolState :=
  { s with force_stop_ := true, workers_ := 0 }

/-- `ThreadPool::resize` (thread_pool.cpp lines 163-182): growing spawns
workers; shrinking is left unimplemented; `stats_.thread_count` is then set
to the (possibly unchanged) worker count. -/
def resize (s : PoolState) (new_size : Nat) : PoolState :=
  if new_size = s.workers_ then s
  else
    let s := if s.workers_ < new_size then { s with workers_ := new_size } else s
    { s with stats_ := { s.stats_ with thread_count := s.workers_ } }

/-- `ThreadPool::getTaskInfos` (thread_pool.cpp lines 210-221): copy the
record of every registry entry. -/
def getTaskInfos (s : PoolState) : List TaskInfo :=
  s.task_infos_.map (fun p => heapGet s p.2)

/-- `ThreadPool::getStats` (thread_pool.cpp lines 197-208). -/
def getStats (s : PoolState) : ThreadPoolStats :=
  { s.stats_ with active_threads := s.active_threads_, pending_tasks := s.tasks_.length }

/-- `ThreadPool::isShuttingDown` (thread_pool.cpp lines 223-225). -/
def isShuttingDown (s : PoolState) : Bool :=
  s.stop_ || s.force_stop_

end ThreadPool

open ThreadPool

/-- The pool operations that mutate a pool, as one step alphabet. -/
inductive Op where
  | opSubmit (id : String) (p : TaskPriority) (w : WorkResult) (now : Nat)
  | opCancelTask (id : String)
  | opCancelPending
  | opWorkerStep (tA tB tC tD : Nat)
  | opResize (n : Nat)
  | opShutdown
  | opForceShutdown
deriving DecidableEq, Repr

/-- Apply one operation to a pool state.  A `submit` that throws mutates
nothing. -/
def applyOp (op : Op) (s : PoolState) : PoolState :=
  match op with
  | .opSubmit id p w now =>
    match submit s id p w now with
    | .ok (s', _) => s'
    | .error _ => s
  | .opCancelTask id => (cancelTask s id).1
  | .opCancelPending => cancelPendingTasks s
  | .opWorkerStep tA tB tC tD => (workerStep s tA tB tC tD).1
  | .opResize n => resize s n
  | .opShutdown => shutdown s
  | .opForceShutdown => forceShutdown s

end Sdk

namespace Sdk

open ThreadPool

/-! Helper lemmas about heap access. -/

lemma getD_set_self {h : List TaskInfo} {r : Nat} {v : TaskInfo} (hr : r < h.length) :
    (h.set r v).getD r default = v := by
  rw [List.getD_eq_getElem?_getD, List.getElem?_set_self hr]
  rfl

lemma getD_set_ne {h : List TaskInfo} {r r' : Nat} {v : TaskInfo} (hne : r ≠ r') :
    (h.set r v).getD r' default = h.getD r' default := by
  rw [List.getD_eq_getElem?_getD, List.getElem?_set_ne hne, ← List.getD_eq_getElem?_getD]

lemma getD_append_last (h : List TaskInfo) (v : TaskInfo) :
    (h ++ [v]).getD h.length default = v := by
  rw [List.getD_append_right _ _ _ _ (le_refl _)]
  simp

/-! Facts about the comparator `Task::operator<`. -/

lemma Task.lt_iff {a b : Task} : Task.lt a b = true ↔
    (a.priority.rank < b.priority.rank ∨
      (a.priority.rank = b.priority.rank ∧ b.submit_time < a.submit_time)) := by
  unfold Task.lt
  by_cases h : a.priority.rank = b.priority.rank
  · rw [if_neg (not_not_intro h), decide_eq_true_eq]
    omega
  · rw [if_pos h, decide_eq_true_eq]
    omega

lemma Task.lt_eq_false_iff {a b : Task} : Task.lt a b = false ↔
    (b.priority.rank < a.priority.rank ∨
      (a.priority.rank = b.priority.rank ∧ a.submit_time ≤ b.submit_time)) := by
  rw [Bool.eq_false_iff, Ne, Task.lt_iff]
  omega

lemma Task.lt_self (a : Task) : Task.lt a a = false := by
  rw [Task.lt_eq_false_iff]
  omega

lemma Task.lt_asymm {a b : Task} (h : Task.lt a b = true) : Task.lt b a = false := by
  rw [Task.lt_iff] at h
  rw [Task.lt_eq_false_iff]
  omega

lemma Task.lt_neg_trans {a m u : Task} (h1 : Task.lt a m = false) (h2 : Task.lt m u = false) :
    Task.lt a u = false := by
  rw [Task.lt_eq_false_iff] at h1 h2 ⊢
  omega

lemma Task.lt_false_elim {t u : Task} (h : Task.lt t u = false) :
    u.priority.rank ≤ t.priority.rank ∧
      (t.priority.rank = u.priority.rank → t.submit_time ≤ u.submit_time) := by
  rw [Task.lt_eq_false_iff] at h
  omega

/-! Facts about `popMax`: the popped task is one of the queued tasks, is
maximal for the comparator, and the pop is a permutation. -/

lemma popMax_eq_none_iff {l : List Task} : popMax l = none ↔ l = [] := by
  cases l with
  | nil => simp [popMax]
  | cons t ts =>
    constructor
    · intro h
      exfalso
      rw [popMax] at h
      split at h
      · simp at h
      · split at h <;> simp at h
    · intro h
      simp at h

lemma popMax_perm {l : List Task} {t : Task} {r : List Task}
    (h : popMax l = some (t, r)) : l.Perm (t :: r) := by
  induction l generalizing t r with
  | nil => simp [popMax] at h
  | cons a ts ih =>
    rw [popMax] at h
    split at h
    · rename_i hp
      simp only [Option.some.injEq, Prod.mk.injEq] at h
      obtain ⟨rfl, rfl⟩ := h
      have hts : ts = [] := popMax_eq_none_iff.mp hp
      subst hts
      exact List.Perm.refl _
    · rename_i m rest hp
      split at h
      · simp only [Option.some.injEq, Prod.mk.injEq] at h
        obtain ⟨rfl, rfl⟩ := h
        exact ((ih hp).cons a).trans (List.Perm.swap m a rest)
      · simp only [Option.some.injEq, Prod.mk.injEq] at h
        obtain ⟨rfl, rfl⟩ := h
        exact List.Perm.refl _

lemma popMax_mem {l : List Task} {t : Task} {r : List Task}
    (h : popMax l = some (t, r)) : t ∈ l :=
  (popMax_perm h).mem_iff.mpr (List.mem_cons_self t r)

lemma popMax_maximal {l : List Task} {t : Task} {r : List Task}
    (h : popMax l = some (t, r)) : ∀ u ∈ l, Task.lt t u = false := by
  induction l generalizing t r with
  | nil => simp [popMax] at h
  | cons a ts ih =>
    rw [popMax] at h
    split at h
    · rename_i hp
      simp only [Option.some.injEq, Prod.mk.injEq] at h
      obtain ⟨rfl, rfl⟩ := h
      have hts : ts = [] := popMax_eq_none_iff.mp hp
      subst hts
      intro u hu
      simp only [List.mem_singleton] at hu
      subst hu
      exact Task.lt_self u
    · rename_i m rest hp
      split at h
      · rename_i hlt
        simp only [Option.some.injEq, Prod.mk.injEq] at h
        obtain ⟨rfl, rfl⟩ := h
        intro u hu
        rcases List.mem_cons.mp hu with rfl | hu
        · exact Task.lt_asymm hlt
        · exact ih hp u hu
      · rename_i hlt
        simp only [Option.some.injEq, Prod.mk.injEq] at h
        obtain ⟨rfl, rfl⟩ := h
        intro u hu
        rcases List.mem_cons.mp hu with rfl | hu
        · exact Task.lt_self _
        · exact Task.lt_neg_trans (Bool.eq_false_iff.mpr hlt) (ih hp u hu)

/-! Equation lemmas for the worker step. -/

lemma executeTask_eq (w : WorkResult) (info : TaskInfo) (tA tB tC tD : Nat) :
    executeTask w info tA tB tC tD =
      ({ info with status := .COMPLETED, start_time := tB, end_time := tD }, w) := rfl

lemma workerStep_exited {s : PoolState} (tA tB tC tD : Nat)
    (h : ((s.stop_ && s.tasks_.isEmpty) || s.force_stop_) = true) :
    workerStep s tA tB tC tD = (s, .exited) := by
  unfold workerStep
  rw [if_pos h]

lemma workerStep_run {s : PoolState} {t : Task} {rest : List Task} (tA tB tC tD : Nat)
    (hcond : ((s.stop_ && s.tasks_.isEmpty) || s.force_stop_) = false)
    (hpop : popMax s.tasks_ = some (t, rest)) :
    workerStep s tA tB tC tD =
      ({ s with
          tasks_ := rest
          heap := s.heap.set t.infoRef
            { heapGet s t.infoRef with status := .COMPLETED, start_time := tB, end_time := tD }
          stats_ := updateStats s.stats_
            { heapGet s t.infoRef with status := .COMPLETED, start_time := tB, end_time := tD }
          active_threads_ := s.active_threads_ + 1 - 1 }, .ran t.infoRef) := by
  unfold workerStep
  rw [if_neg (by rw [hcond]; exact Bool.false_ne_true)]
  rw [hpop]
  rfl

lemma updateStats_completed (stats : ThreadPoolStats) (info : TaskInfo)
    (h : info.status = .COMPLETED) :
    (updateStats stats info).completed_tasks = stats.completed_tasks + 1 ∧
      (updateStats stats info).failed_tasks = stats.failed_tasks := by
  unfold updateStats
  rw [h]
  split_ifs <;> simp_all

end Sdk

namespace Sdk

open ThreadPool

/-! Registry lemmas. -/

lemma regLookup_eq_none_of_not_any {reg : Registry} {id : String}
    (h : reg.any (fun p => p.1 = id) = false) : regLookup reg id = none := by
  induction reg with
  | nil => rfl
  | cons p rest ih =>
    simp only [List.any_cons, Bool.or_eq_false_iff] at h
    obtain ⟨h1, h2⟩ := h
    rw [regLookup, if_neg (by simpa using h1)]
    exact ih h2

lemma regLookup_append_of_none {reg l2 : Registry} {id : String}
    (h : regLookup reg id = none) : regLookup (reg ++ l2) id = regLookup l2 id := by
  induction reg with
  | nil => rfl
  | cons p rest ih =>
    rw [regLookup] at h
    by_cases hp : p.1 = id
    · rw [if_pos hp] at h
      exact absurd h (by simp)
    · rw [if_neg hp] at h
      rw [List.cons_append, regLookup, if_neg hp]
      exact ih h

lemma regLookup_map_replace {reg : Registry} {id : String} {ref : Nat}
    (h : reg.any (fun p => p.1 = id) = true) :
    regLookup (reg.map (fun p => if p.1 = id then (id, ref) else p)) id = some ref := by
  induction reg with
  | nil => simp at h
  | cons p rest ih =>
    by_cases hp : p.1 = id
    · rw [List.map_cons, if_pos hp, regLookup, if_pos rfl]
    · simp only [List.any_cons, Bool.or_eq_true, decide_eq_true_eq] at h
      rcases h with h | h
      · exact absurd h hp
      · rw [List.map_cons, if_neg hp, regLookup, if_neg hp]
        exact ih (by simpa using h)

lemma regLookup_regInsert_self (reg : Registry) (id : String) (ref : Nat) :
    regLookup (regInsert reg id ref) id = some ref := by
  unfold regInsert
  by_cases hany : reg.any (fun p => p.1 = id) = true
  · rw [if_pos hany]
    exact regLookup_map_replace hany
  · rw [if_neg hany]
    rw [regLookup_append_of_none
      (regLookup_eq_none_of_not_any (Bool.eq_false_iff.mpr hany))]
    rw [regLookup, if_pos rfl]

/-! Equation lemmas for `submit`. -/

lemma submit_ok (s : PoolState) (hstop : s.stop_ = false)
    (id : String) (p : TaskPriority) (w : WorkResult) (now : Nat) :
    submit s id p w now =
      .ok ({ s with
              heap := s.heap ++ [mkTaskInfo id p now]
              tasks_ := s.tasks_ ++
                [{ id := id, priority := p, submit_time := now,
                   infoRef := s.heap.length, work := w }]
              task_infos_ := regInsert s.task_infos_ id s.heap.length },
            s.heap.length) := by
  unfold submit
  rw [hstop]
  rfl

lemma submit_error {s : PoolState} (hstop : s.stop_ = true)
    (id : String) (p : TaskPriority) (w : WorkResult) (now : Nat) :
    submit s id p w now = .error "ThreadPool is shutting down" := by
  unfold submit
  rw [hstop]
  rfl

/-! The drain loop of `cancelPendingTasks` only ever turns a record status
into `CANCELLED`, and only for records referenced from the queue. -/

lemma cancelLoop_status (ts : List Task) (h : List TaskInfo) (r : Nat)
    (hrefs : ∀ t ∈ ts, t.infoRef < h.length) :
    ((cancelLoop ts h).getD r default).status = (h.getD r default).status ∨
      (((cancelLoop ts h).getD r default).status = .CANCELLED ∧ ∃ t ∈ ts, t.infoRef = r) := by
  induction ts generalizing h with
  | nil => exact Or.inl rfl
  | cons t0 ts' ih =>
    rw [cancelLoop, List.foldl_cons]
    have hlen : t0.infoRef < h.length := hrefs t0 (List.mem_cons_self _ _)
    have hrefs' : ∀ t ∈ ts',
        t.infoRef < (h.set t0.infoRef
          { h.getD t0.infoRef default with status := .CANCELLED }).length := by
      intro t ht
      rw [List.length_set]
      exact hrefs t (List.mem_cons_of_mem _ ht)
    have step := ih (h.set t0.infoRef
      { h.getD t0.infoRef default with status := .CANCELLED }) hrefs'
    rw [cancelLoop] at step
    rcases step with heq | ⟨hC, t', ht', hr⟩
    · by_cases hrr : t0.infoRef = r
      · subst hrr
        rw [getD_set_self hlen] at heq
        exact Or.inr ⟨heq, t0, List.mem_cons_self _ _, rfl⟩
      · rw [getD_set_ne hrr] at heq
        exact Or.inl heq
    · exact Or.inr ⟨hC, t', List.mem_cons_of_mem _ ht', hr⟩

/-! Well-formedness of a pool state: queued tasks reference distinct live
records whose status is `PENDING` or `CANCELLED` (a record leaves the queue
exactly when a worker pops it or the queue is drained). -/

def WF (s : PoolState) : Prop :=
  (∀ t ∈ s.tasks_, t.infoRef < s.heap.length) ∧
    (s.tasks_.map Task.infoRef).Nodup ∧
    (∀ t ∈ s.tasks_,
      (heapGet s t.infoRef).status = .PENDING ∨ (heapGet s t.infoRef).status = .CANCELLED)

instance (s : PoolState) : Decidable (WF s) := by
  unfold WF
  infer_instance

lemma wf_init (thread_count t0 : Nat) : WF (init thread_count t0) := by
  refine ⟨?_, ?_, ?_⟩ <;> simp [init]

end Sdk

namespace Sdk

open ThreadPool

/-! Equation lemmas for `cancelTask`. -/

lemma cancelTask_none {s : PoolState} {id : String}
    (h : regLookup s.task_infos_ id = none) : cancelTask s id = (s, false) := by
  unfold cancelTask
  simp only [h]

lemma cancelTask_not_pending {s : PoolState} {id : String} {ref : Nat}
    (h : regLookup s.task_infos_ id = some ref)
    (hs : ¬ (heapGet s ref).status = .PENDING) : cancelTask s id = (s, false) := by
  unfold cancelTask
  simp only [h]
  rw [if_neg hs]

lemma cancelTask_pending {s : PoolState} {id : String} {ref : Nat}
    (h : regLookup s.task_infos_ id = some ref)
    (hs : (heapGet s ref).status = .PENDING) :
    cancelTask s id =
      ({ s with heap := s.heap.set ref { heapGet s ref with status := .CANCELLED } }, true) := by
  unfold cancelTask
  simp only [h]
  rw [if_pos hs]

lemma workerStep_looped {s : PoolState} (tA tB tC tD : Nat)
    (hcond : ((s.stop_ && s.tasks_.isEmpty) || s.force_stop_) = false)
    (hpop : popMax s.tasks_ = none) :
    workerStep s tA tB tC tD = (s, .looped) := by
  unfold workerStep
  rw [if_neg (by rw [hcond]; exact Bool.false_ne_true)]
  rw [hpop]

/-! The per-record state machine that the code actually implements: the four
transitions of the specification plus the re-dispatch of a record that was
cancelled while still enqueued. -/

inductive StatusEdge : TaskStatus → TaskStatus → Prop where
  | pending_running : StatusEdge .PENDING .RUNNING
  | pending_cancelled : StatusEdge .PENDING .CANCELLED
  | running_completed : StatusEdge .RUNNING .COMPLETED
  | running_failed : StatusEdge .RUNNING .FAILED
  | cancelled_running : StatusEdge .CANCELLED .RUNNING

lemma statusPath_pending_completed :
    Relation.ReflTransGen StatusEdge .PENDING .COMPLETED :=
  Relation.ReflTransGen.head .pending_running
    (Relation.ReflTransGen.single .running_completed)

lemma statusPath_cancelled_completed :
    Relation.ReflTransGen StatusEdge .CANCELLED .COMPLETED :=
  Relation.ReflTransGen.head .cancelled_running
    (Relation.ReflTransGen.single .running_completed)

/-! Preservation of well-formedness by every pool operation. -/

lemma wf_applyOp {s : PoolState} (op : Op) (hwf : WF s) : WF (applyOp op s) := by
  obtain ⟨hlt, hnd, hst⟩ := hwf
  cases op with
  | opSubmit id p w now =>
    cases hstop : s.stop_ with
    | true =>
      simp only [applyOp, submit_error hstop]
      exact ⟨hlt, hnd, hst⟩
    | false =>
      simp only [applyOp, submit_ok _ hstop]
      refine ⟨?_, ?_, ?_⟩
      · intro t ht
        rcases List.mem_append.mp ht with ht | ht
        · simp only [List.length_append, List.length_singleton]
          exact lt_of_lt_of_le (hlt t ht) (Nat.le_add_right _ _)
        · simp only [List.mem_singleton] at ht
          subst ht
          simp [List.length_append]
      · rw [List.map_append]
        refine List.Nodup.append hnd (List.nodup_singleton _) ?_
        intro a ha hb
        simp only [List.map_cons, List.map_nil, List.mem_singleton] at hb
        subst hb
        obtain ⟨t, ht, href⟩ := List.mem_map.mp ha
        exact absurd (href ▸ hlt t ht) (lt_irrefl _)
      · intro t ht
        rcases List.mem_append.mp ht with ht | ht
        · have hold := hst t ht
          simp only [heapGet] at hold ⊢
          rw [List.getD_append _ _ _ _ (hlt t ht)]
          exact hold
        · simp only [List.mem_singleton] at ht
          subst ht
          simp only [heapGet]
          rw [getD_append_last]
          left
          rfl
  | opCancelTask id =>
    simp only [applyOp]
    cases hreg : regLookup s.task_infos_ id with
    | none =>
      rw [cancelTask_none hreg]
      exact ⟨hlt, hnd, hst⟩
    | some ref =>
      by_cases hpend : (heapGet s ref).status = .PENDING
      · rw [cancelTask_pending hreg hpend]
        refine ⟨?_, hnd, ?_⟩
        · intro t ht
          simp only [List.length_set]
          exact hlt t ht
        · intro t ht
          by_cases hrr : ref = t.infoRef
          · subst hrr
            simp only [heapGet]
            by_cases hlen : t.infoRef < s.heap.length
            · rw [getD_set_self hlen]
              right
              rfl
            · rw [List.set_eq_of_length_le (le_of_not_lt hlen)]
              exact hst t ht
          · simp only [heapGet]
            rw [getD_set_ne hrr]
            exact hst t ht
      · rw [cancelTask_not_pending hreg hpend]
        exact ⟨hlt, hnd, hst⟩
  | opCancelPending =>
    simp only [applyOp]
    unfold cancelPendingTasks
    exact ⟨by simp, by simp, by simp⟩
  | opWorkerStep tA tB tC tD =>
    simp only [applyOp]
    by_cases hcond : ((s.stop_ && s.tasks_.isEmpty) || s.force_stop_) = true
    · rw [workerStep_exited tA tB tC tD hcond]
      exact ⟨hlt, hnd, hst⟩
    · have hcond' : ((s.stop_ && s.tasks_.isEmpty) || s.force_stop_) = false :=
        Bool.eq_false_iff.mpr hcond
      cases hpop : popMax s.tasks_ with
      | none =>
        rw [workerStep_looped tA tB tC tD hcond' hpop]
        exact ⟨hlt, hnd, hst⟩
      | some pr =>
        obtain ⟨t, rest⟩ := pr
        rw [workerStep_run tA tB tC tD hcond' hpop]
        have hperm := popMax_perm hpop
        have hmem : ∀ u ∈ rest, u ∈ s.tasks_ := fun u hu =>
          hperm.mem_iff.mpr (List.mem_cons_of_mem _ hu)
        have hndcons : (Task.infoRef t :: rest.map Task.infoRef).Nodup := by
          have := (hperm.map Task.infoRef).nodup hnd
          simpa using this
        refine ⟨?_, ?_, ?_⟩
        · intro u hu
          simp only [List.length_set]
          exact hlt u (hmem u hu)
        · exact (List.nodup_cons.mp hndcons).2
        · intro u hu
          have hne : t.infoRef ≠ u.infoRef := by
            intro he
            exact (List.nodup_cons.mp hndcons).1
              (he ▸ List.mem_map_of_mem Task.infoRef hu)
          have hold := hst u (hmem u hu)
          simp only [heapGet] at hold ⊢
          rw [getD_set_ne hne]
          exact hold
  | opResize n =>
    simp only [applyOp]
    unfold resize
    split_ifs <;> exact ⟨hlt, hnd, hst⟩
  | opShutdown =>
    exact ⟨hlt, hnd, hst⟩
  | opForceShutdown =>
    exact ⟨hlt, hnd, hst⟩

end Sdk

namespace Sdk

open ThreadPool

/-- C7 (amended): under every pool operation, the status of every task
record moves only along the transition graph PENDING → RUNNING,
PENDING → CANCELLED, RUNNING → COMPLETED, RUNNING → FAILED, extended with
CANCELLED → RUNNING, because a record cancelled while still enqueued is
dequeued and executed anyway.  In particular COMPLETED and FAILED are never
left (no edge leaves them), but CANCELLED is not terminal. -/
theorem c7_status_machine (s : PoolState) (op : Op) (hwf : WF s) (ref : Nat) :
    Relation.ReflTransGen StatusEdge
      (heapGet s ref).status (heapGet (applyOp op s) ref).status := by
  obtain ⟨hlt, hnd, hst⟩ := hwf
  cases op with
  | opSubmit id p w now =>
    cases hstop : s.stop_ with
    | true =>
      simp only [applyOp, submit_error hstop]
      exact Relation.ReflTransGen.refl
    | false =>
      simp only [applyOp, submit_ok _ hstop]
      simp only [heapGet]
      rcases lt_trichotomy ref s.heap.length with hr | hr | hr
      · rw [List.getD_append _ _ _ _ hr]
      · subst hr
        rw [getD_append_last, List.getD_eq_default _ _ (le_refl _)]
        show Relation.ReflTransGen StatusEdge TaskStatus.PENDING TaskStatus.PENDING
        exact Relation.ReflTransGen.refl
      · have h2 : (s.heap ++ [mkTaskInfo id p now]).length ≤ ref := by
          simp only [List.length_append, List.length_singleton]
          omega
        rw [List.getD_eq_default _ _ (le_of_lt hr), List.getD_eq_default _ _ h2]
  | opCancelTask id =>
    simp only [applyOp]
    cases hreg : regLookup s.task_infos_ id with
    | none =>
      rw [cancelTask_none hreg]
    | some r =>
      by_cases hpend : (heapGet s r).status = .PENDING
      · rw [cancelTask_pending hreg hpend]
        by_cases hrr : r = ref
        · subst hrr
          simp only [heapGet]
          by_cases hlen : r < s.heap.length
          · rw [getD_set_self hlen]
            rw [heapGet] at hpend
            rw [hpend]
            exact Relation.ReflTransGen.single .pending_cancelled
          · rw [List.set_eq_of_length_le (le_of_not_lt hlen)]
        · simp only [heapGet]
          rw [getD_set_ne hrr]
      · rw [cancelTask_not_pending hreg hpend]
  | opCancelPending =>
    simp only [applyOp]
    rcases cancelLoop_status s.tasks_ s.heap ref hlt with heq | ⟨hC, t, ht, htr⟩
    · simp only [cancelPendingTasks, heapGet]
      rw [heq]
    · have hold := hst t ht
      rw [heapGet, htr] at hold
      simp only [cancelPendingTasks, heapGet]
      rw [hC]
      rcases hold with hold | hold
      · rw [hold]
        exact Relation.ReflTransGen.single .pending_cancelled
      · rw [hold]
  | opWorkerStep tA tB tC tD =>
    simp only [applyOp]
    by_cases hcond : ((s.stop_ && s.tasks_.isEmpty) || s.force_stop_) = true
    · rw [workerStep_exited tA tB tC tD hcond]
    · have hcond' : ((s.stop_ && s.tasks_.isEmpty) || s.force_stop_) = false :=
        Bool.eq_false_iff.mpr hcond
      cases hpop : popMax s.tasks_ with
      | none =>
        rw [workerStep_looped tA tB tC tD hcond' hpop]
      | some pr =>
        obtain ⟨t, rest⟩ := pr
        rw [workerStep_run tA tB tC tD hcond' hpop]
        by_cases hrr : t.infoRef = ref
        · have hmem := popMax_mem hpop
          have hvalid : t.infoRef < s.heap.length := hlt t hmem
          subst hrr
          simp only [heapGet]
          rw [getD_set_self hvalid]
          have hold := hst t hmem
          rw [heapGet] at hold
          rcases hold with hold | hold
          · rw [hold]
            exact statusPath_pending_completed
          · rw [hold]
            exact statusPath_cancelled_completed
        · simp only [heapGet]
          rw [getD_set_ne hrr]
  | opResize n =>
    simp only [applyOp]
    unfold resize
    split_ifs <;> exact Relation.ReflTransGen.refl
  | opShutdown =>
    exact Relation.ReflTransGen.refl
  | opForceShutdown =>
    exact Relation.ReflTransGen.refl

end Sdk

namespace Sdk

open ThreadPool

/-- The recorded duration of a terminated task, in milliseconds
(`end_time - start_time`, thread_pool.cpp lines 115-116). -/
def durationOf (i : TaskInfo) : ℚ := ((i.end_time - i.start_time : Nat) : ℚ)

lemma updateStats_sum (stats : ThreadPoolStats) (i : TaskInfo)
    (hterm : i.status = .COMPLETED ∨ i.status = .FAILED)
    (hdur : i.start_time < i.end_time) :
    (updateStats stats i).completed_tasks + (updateStats stats i).failed_tasks
        = stats.completed_tasks + stats.failed_tasks + 1 ∧
    (updateStats stats i).average_task_duration_ms *
        (((updateStats stats i).completed_tasks + (updateStats stats i).failed_tasks : Nat) : ℚ)
      = stats.average_task_duration_ms *
          ((stats.completed_tasks + stats.failed_tasks : Nat) : ℚ) + durationOf i := by
  unfold updateStats
  rcases hterm with h | h <;> rw [h] <;> simp only [if_pos hdur] <;>
    simp only [reduceCtorEq, if_true, if_false, ite_true, ite_false]
  · have hc : stats.completed_tasks + 1 + stats.failed_tasks - 1
        = stats.completed_tasks + stats.failed_tasks := by omega
    refine ⟨by omega, ?_⟩
    rw [hc]
    rw [div_mul_cancel₀]
    · rfl
    · exact Nat.cast_ne_zero.mpr (by omega)
  · have hc : stats.completed_tasks + (stats.failed_tasks + 1) - 1
        = stats.completed_tasks + stats.failed_tasks := by omega
    refine ⟨by omega, ?_⟩
    rw [hc]
    rw [div_mul_cancel₀]
    · rfl
    · exact Nat.cast_ne_zero.mpr (by omega)

lemma foldl_updateStats_inv (infos : List TaskInfo) :
    ∀ stats : ThreadPoolStats,
      (∀ i ∈ infos, (i.status = .COMPLETED ∨ i.status = .FAILED) ∧ i.start_time < i.end_time) →
      (infos.foldl updateStats stats).average_task_duration_ms *
          (((infos.foldl updateStats stats).completed_tasks +
            (infos.foldl updateStats stats).failed_tasks : Nat) : ℚ)
        = stats.average_task_duration_ms *
            ((stats.completed_tasks + stats.failed_tasks : Nat) : ℚ)
          + (infos.map durationOf).sum := by
  induction infos with
  | nil =>
    intro stats _
    simp
  | cons i rest ih =>
    intro stats hall
    have hi := hall i (List.mem_cons_self _ _)
    have hrest : ∀ j ∈ rest,
        (j.status = .COMPLETED ∨ j.status = .FAILED) ∧ j.start_time < j.end_time :=
      fun j hj => hall j (List.mem_cons_of_mem _ hj)
    obtain ⟨_, hsum⟩ := updateStats_sum stats i hi.1 hi.2
    rw [List.foldl_cons, ih (updateStats stats i) hrest, hsum, List.map_cons, List.sum_cons]
    ring

/-- C8 (amended): the running-average identity
average × (completed + failed) = sum of recorded durations holds exactly
(over exact arithmetic) for every sequence of terminating tasks in which
each task has end_instant strictly after start_instant.  (The identity
fails when a task terminates with end_instant ≤ start_instant, because
`updateStats` then increments the count but skips the mean update.) -/
theorem c8_average_invariant (infos : List TaskInfo) (n t0 : Nat)
    (h : ∀ i ∈ infos,
      (i.status = .COMPLETED ∨ i.status = .FAILED) ∧ i.start_time < i.end_time) :
    (infos.foldl updateStats (init n t0).stats_).average_task_duration_ms *
        (((infos.foldl updateStats (init n t0).stats_).completed_tasks +
          (infos.foldl updateStats (init n t0).stats_).failed_tasks : Nat) : ℚ)
      = (infos.map durationOf).sum := by
  rw [foldl_updateStats_inv infos _ h]
  simp [init]

/-- Two terminated tasks, the second of which has `end_time = start_time`. -/
def c8_infos : List TaskInfo :=
  [{ id := "a", priority := .NORMAL, status := .COMPLETED,
     submit_time := 0, start_time := 0, end_time := 5, error_message := "" },
   { id := "b", priority := .NORMAL, status := .COMPLETED,
     submit_time := 0, start_time := 3, end_time := 3, error_message := "" }]

/-- C8 counterexample: after a 5 ms task and a 0 ms task (end = start) both
terminate COMPLETED, the statistics hold average 5 with count 2, so
average × (completed + failed) = 10 while the durations sum to 5: the
claimed identity is false, far beyond floating-point tolerance. -/
theorem c8_counterexample :
    (c8_infos.foldl updateStats (init 1 0).stats_).average_task_duration_ms *
        (((c8_infos.foldl updateStats (init 1 0).stats_).completed_tasks +
          (c8_infos.foldl updateStats (init 1 0).stats_).failed_tasks : Nat) : ℚ)
      ≠ (c8_infos.map durationOf).sum := by
  norm_num [c8_infos, updateStats, init, durationOf]

/-- C8 witness: a single completed task with recorded duration 5 ms
satisfies the hypotheses, and the identity gives 5 = 5. -/
theorem c8_average_invariant_witness :
    ([{ id := "a", priority := .NORMAL, status := .COMPLETED, submit_time := 0,
        start_time := 0, end_time := 5, error_message := "" }].foldl updateStats
          (init 1 0).stats_).average_task_duration_ms *
        ((([{ id := "a", priority := .NORMAL, status := .COMPLETED, submit_time := 0,
              start_time := 0, end_time := 5, error_message := "" }].foldl updateStats
            (init 1 0).stats_).completed_tasks +
          ([{ id := "a", priority := .NORMAL, status := .COMPLETED, submit_time := 0,
              start_time := 0, end_time := 5, error_message := "" }].foldl updateStats
            (init 1 0).stats_).failed_tasks : Nat) : ℚ)
      = ([{ id := "a", priority := .NORMAL, status := .COMPLETED, submit_time := 0,
            start_time := 0, end_time := 5, error_message := "" }].map durationOf).sum :=
  c8_average_invariant _ 1 0 (by decide)

end Sdk

namespace Sdk

open ThreadPool

/-- Whether a call to `submit` returns normally (true) or throws (false). -/
def submitOk (s : PoolState) (id : String) (p : TaskPriority) (w : WorkResult)
    (now : Nat) : Bool :=
  match submit s id p w now with
  | .ok _ => true
  | .error _ => false

/-- A fresh one-worker pool with a single submitted task whose work throws
`std::runtime_error("boom")`. -/
def c1_s1 : PoolState :=
  applyOp (.opSubmit "T" .NORMAL (.raise (.std "boom")) 5) (init 1 0)

/-- C1: evaluating the worker on the failing input.  The task whose closure
throws "boom" is executed and ends COMPLETED with empty error_message;
completed_tasks becomes 1 and failed_tasks stays 0; the worker iteration
reports a normal run (it does not break) and a subsequent submit is
accepted.  The claim instead requires terminal state FAILED, error text
"boom" and failed_total incremented: `(*task)()` on a `std::packaged_task`
stores the user exception in the future, so the catch blocks of the wrapper
(thread_pool.h lines 225-231) and of the worker (thread_pool.cpp lines
75-81) never fire, and the worker unconditionally overwrites the status
with COMPLETED (thread_pool.cpp line 74) after the wrapper returns. -/
theorem c1_throwing_task_ends_completed :
    (workerStep c1_s1 6 7 8 9).2 = .ran 0 ∧
    (heapGet (workerStep c1_s1 6 7 8 9).1 0).status = .COMPLETED ∧
    (heapGet (workerStep c1_s1 6 7 8 9).1 0).error_message = "" ∧
    (workerStep c1_s1 6 7 8 9).1.stats_.completed_tasks = 1 ∧
    (workerStep c1_s1 6 7 8 9).1.stats_.failed_tasks = 0 ∧
    submitOk (workerStep c1_s1 6 7 8 9).1 "U" .NORMAL (.ok 7) 10 = true := by
  decide

/-- A fresh one-worker pool with one pending task "B". -/
def c2_s1 : PoolState := applyOp (.opSubmit "B" .NORMAL (.ok 10) 5) (init 1 0)

/-- The pool after `cancelTask("B")` succeeded. -/
def c2_s2 : PoolState := (cancelTask c2_s1 "B").1

/-- The queue wrapper of task "B" as built by `submit`. -/
def c2_task : Task :=
  { id := "B", priority := .NORMAL, submit_time := 5, infoRef := 0, work := .ok 10 }

/-- C2 counterexample: `cancel("B")` returns true and marks the record
CANCELLED, but the worker then dequeues and executes the cancelled task
anyway: its status is overwritten to COMPLETED and completed_tasks is
incremented — contradicting "every task so cancelled is never executed" and
"counts toward neither completed_total nor failed_total". -/
theorem c2_counterexample :
    (cancelTask c2_s1 "B").2 = true ∧
    (heapGet c2_s2 0).status = .CANCELLED ∧
    (workerStep c2_s2 6 7 8 9).2 = .ran 0 ∧
    (heapGet (workerStep c2_s2 6 7 8 9).1 0).status = .COMPLETED ∧
    (workerStep c2_s2 6 7 8 9).1.stats_.completed_tasks = 1 := by
  decide

/-- C2 (amended): `cancelTask` returns true iff the registered record is
PENDING, in which case the record becomes CANCELLED; but cancellation does
not remove the task from the queue and the worker never re-checks the
status on dequeue: whatever the popped record's status, the worker executes
the closure, ends the record COMPLETED, and counts it in completed_tasks. -/
theorem c2_cancel_amended (s : PoolState) (id : String) (ref : Nat) (t : Task)
    (rest : List Task) (tA tB tC tD : Nat)
    (hreg : regLookup s.task_infos_ id = some ref)
    (hlen : ref < s.heap.length)
    (hcond : ((s.stop_ && s.tasks_.isEmpty) || s.force_stop_) = false)
    (hpop : popMax s.tasks_ = some (t, rest))
    (htlen : t.infoRef < s.heap.length) :
    ((cancelTask s id).2 = true ↔ (heapGet s ref).status = .PENDING) ∧
    ((heapGet s ref).status = .PENDING →
      (heapGet (cancelTask s id).1 ref).status = .CANCELLED) ∧
    (heapGet (workerStep s tA tB tC tD).1 t.infoRef).status = .COMPLETED ∧
    (workerStep s tA tB tC tD).1.stats_.completed_tasks = s.stats_.completed_tasks + 1 := by
  refine ⟨⟨?_, ?_⟩, ?_, ?_, ?_⟩
  · intro htrue
    by_contra hnp
    rw [cancelTask_not_pending hreg hnp] at htrue
    simp at htrue
  · intro hp
    rw [cancelTask_pending hreg hp]
  · intro hp
    rw [cancelTask_pending hreg hp]
    simp only [heapGet]
    rw [getD_set_self hlen]
  · rw [workerStep_run tA tB tC tD hcond hpop]
    simp only [heapGet]
    rw [getD_set_self htlen]
  · rw [workerStep_run tA tB tC tD hcond hpop]
    exact (updateStats_completed _ _ rfl).1

/-- C2 witness: instantiating the amended theorem at the pool whose only
queued task "B" has just been cancelled: a second cancel returns false, and
the worker executes the CANCELLED record to COMPLETED, counting it. -/
theorem c2_cancel_amended_witness :
    ((cancelTask c2_s2 "B").2 = true ↔ (heapGet c2_s2 0).status = .PENDING) ∧
    ((heapGet c2_s2 0).status = .PENDING →
      (heapGet (cancelTask c2_s2 "B").1 0).status = .CANCELLED) ∧
    (heapGet (workerStep c2_s2 6 7 8 9).1 0).status = .COMPLETED ∧
    (workerStep c2_s2 6 7 8 9).1.stats_.completed_tasks
      = c2_s2.stats_.completed_tasks + 1 :=
  c2_cancel_amended c2_s2 "B" 0 c2_task [] 6 7 8 9 (by decide) (by decide) (by decide)
    (by decide) (by decide)

/-- C3: whenever a worker dequeues, it pops a task of maximal priority rank
among all pending tasks, and of minimal submit instant among those of that
rank — the comparator orders by priority enum value first and breaks ties
by earlier submit_time (thread_pool.h lines 134-139). -/
theorem c3_priority_dispatch (s : PoolState) (t : Task) (rest : List Task)
    (tA tB tC tD : Nat)
    (hcond : ((s.stop_ && s.tasks_.isEmpty) || s.force_stop_) = false)
    (hpop : popMax s.tasks_ = some (t, rest)) :
    (workerStep s tA tB tC tD).2 = .ran t.infoRef ∧
    (∀ u ∈ s.tasks_, u.priority.rank ≤ t.priority.rank) ∧
    (∀ u ∈ s.tasks_, u.priority.rank = t.priority.rank → t.submit_time ≤ u.submit_time) := by
  refine ⟨?_, ?_, ?_⟩
  · rw [workerStep_run tA tB tC tD hcond hpop]
  · intro u hu
    exact (Task.lt_false_elim (popMax_maximal hpop u hu)).1
  · intro u hu hrank
    exact (Task.lt_false_elim (popMax_maximal hpop u hu)).2 hrank.symm

/-- Pool with three pending tasks: LOW at instant 1, CRITICAL at 2,
CRITICAL at 3. -/
def c3_s : PoolState :=
  applyOp (.opSubmit "C" .CRITICAL (.ok 3) 3)
    (applyOp (.opSubmit "B" .CRITICAL (.ok 2) 2)
      (applyOp (.opSubmit "A" .LOW (.ok 1) 1) (init 1 0)))

/-- The task the worker must pop from `c3_s`: CRITICAL, earliest instant. -/
def c3_top : Task :=
  { id := "B", priority := .CRITICAL, submit_time := 2, infoRef := 1, work := .ok 2 }

/-- The remaining queue after popping `c3_top` from `c3_s`. -/
def c3_rest : List Task :=
  [{ id := "A", priority := .LOW, submit_time := 1, infoRef := 0, work := .ok 1 },
   { id := "C", priority := .CRITICAL, submit_time := 3, infoRef := 2, work := .ok 3 }]

/-- C3 witness: among LOW@1, CRITICAL@2, CRITICAL@3 the worker pops
CRITICAL@2. -/
theorem c3_priority_dispatch_witness :
    (workerStep c3_s 10 11 12 13).2 = .ran 1 ∧
    (∀ u ∈ c3_s.tasks_, u.priority.rank ≤ c3_top.priority.rank) ∧
    (∀ u ∈ c3_s.tasks_, u.priority.rank = c3_top.priority.rank →
      c3_top.submit_time ≤ u.submit_time) :=
  c3_priority_dispatch c3_s c3_top c3_rest 10 11 12 13 (by decide) (by decide)

/-- C4 (amended): after `forceShutdown` the immediate flag is set, all
workers are joined and cleared, and a worker that wakes exits at once; but
the pending queue and every task record are left untouched — pending tasks
are neither drained nor marked CANCELLED. -/
theorem c4_force_shutdown_amended (s : PoolState) (tA tB tC tD : Nat) :
    (forceShutdown s).workers_ = 0 ∧
    (forceShutdown s).force_stop_ = true ∧
    (forceShutdown s).tasks_ = s.tasks_ ∧
    (forceShutdown s).heap = s.heap ∧
    workerStep (forceShutdown s) tA tB tC tD = (forceShutdown s, .exited) := by
  refine ⟨rfl, rfl, rfl, rfl, ?_⟩
  apply workerStep_exited
  simp [forceShutdown]

/-- A one-worker pool with one pending task "P". -/
def c4_s1 : PoolState := applyOp (.opSubmit "P" .NORMAL (.ok 1) 5) (init 1 0)

/-- C4 counterexample: after `forceShutdown` of a pool with one PENDING
task, the task is still in the queue and still PENDING — not removed, not
CANCELLED, contradicting the claim. -/
theorem c4_counterexample :
    (forceShutdown c4_s1).tasks_.length = 1 ∧
    (heapGet (forceShutdown c4_s1) 0).status = .PENDING := by
  decide

/-- C5 (amended): `submit` fails — synchronously, by throwing, with nothing
inserted — iff the graceful-shutdown flag `stop_` is set; the immediate
flag `force_stop_` is never consulted, so after a force-only shutdown
submissions are still accepted and enqueued. -/
theorem c5_submit_shutdown_amended (s : PoolState) (id : String) (p : TaskPriority)
    (w : WorkResult) (now : Nat) :
    (s.stop_ = true → submit s id p w now = .error "ThreadPool is shutting down") ∧
    (s.stop_ = false → submitOk s id p w now = true ∧
      (applyOp (.opSubmit id p w now) s).tasks_.length = s.tasks_.length + 1 ∧
      regLookup (applyOp (.opSubmit id p w now) s).task_infos_ id
        = some s.heap.length) := by
  constructor
  · intro h
    exact submit_error h id p w now
  · intro h
    refine ⟨?_, ?_, ?_⟩
    · unfold submitOk
      rw [submit_ok _ h]
    · simp only [applyOp, submit_ok _ h]
      simp
    · simp only [applyOp, submit_ok _ h]
      exact regLookup_regInsert_self _ _ _

/-- C5 witness: after `shutdown` submit throws; after `forceShutdown` alone
submit succeeds and enqueues. -/
theorem c5_submit_shutdown_witness :
    (submit (shutdown (init 1 0)) "x" .NORMAL (.ok 7) 5
        = .error "ThreadPool is shutting down") ∧
    (submitOk (forceShutdown (init 1 0)) "y" .NORMAL (.ok 8) 6 = true ∧
      (applyOp (.opSubmit "y" .NORMAL (.ok 8) 6) (forceShutdown (init 1 0))).tasks_.length
        = (forceShutdown (init 1 0)).tasks_.length + 1 ∧
      regLookup
          (applyOp (.opSubmit "y" .NORMAL (.ok 8) 6)
            (forceShutdown (init 1 0))).task_infos_ "y"
        = some (forceShutdown (init 1 0)).heap.length) :=
  ⟨(c5_submit_shutdown_amended (shutdown (init 1 0)) "x" .NORMAL (.ok 7) 5).1 rfl,
   (c5_submit_shutdown_amended (forceShutdown (init 1 0)) "y" .NORMAL (.ok 8) 6).2 rfl⟩

/-- C5 counterexample: a submission after immediate (force) shutdown does
NOT fail: it is accepted and the task is enqueued, because `submit` checks
only `stop_` and `forceShutdown` sets only `force_stop_`. -/
theorem c5_counterexample :
    (forceShutdown (init 1 0)).force_stop_ = true ∧
    submitOk (forceShutdown (init 1 0)) "x" .NORMAL (.ok 7) 5 = true ∧
    (applyOp (.opSubmit "x" .NORMAL (.ok 7) 5) (forceShutdown (init 1 0))).tasks_.length
      = 1 := by
  decide

/-- C6 (amended): a submit whose caller-supplied id is already live does not
fail: it is accepted, a second wrapper task is pushed onto the queue, and
the registry binding for the id is overwritten to the fresh record; the old
record object itself is unchanged (only unreachable by id). -/
theorem c6_duplicate_id_amended (s : PoolState) (id : String) (p : TaskPriority)
    (w : WorkResult) (now ref0 : Nat)
    (hstop : s.stop_ = false)
    (hdup : regLookup s.task_infos_ id = some ref0)
    (hlen : ref0 < s.heap.length) :
    submitOk s id p w now = true ∧
    regLookup (applyOp (.opSubmit id p w now) s).task_infos_ id = some s.heap.length ∧
    (applyOp (.opSubmit id p w now) s).tasks_.length = s.tasks_.length + 1 ∧
    heapGet (applyOp (.opSubmit id p w now) s) ref0 = heapGet s ref0 := by
  refine ⟨?_, ?_, ?_, ?_⟩
  · unfold submitOk
    rw [submit_ok _ hstop]
  · simp only [applyOp, submit_ok _ hstop]
    exact regLookup_regInsert_self _ _ _
  · simp only [applyOp, submit_ok _ hstop]
    simp
  · simp only [applyOp, submit_ok _ hstop]
    simp only [heapGet]
    exact List.getD_append _ _ _ _ hlen

/-- A pool holding a live task with id "A". -/
def c6_s1 : PoolState := applyOp (.opSubmit "A" .NORMAL (.ok 1) 1) (init 1 0)

/-- C6 witness: re-submitting id "A" while the first "A" is live succeeds
and rebinds the registry to the new record. -/
theorem c6_duplicate_id_witness :
    submitOk c6_s1 "A" .NORMAL (.ok 2) 2 = true ∧
    regLookup (applyOp (.opSubmit "A" .NORMAL (.ok 2) 2) c6_s1).task_infos_ "A"
      = some 1 ∧
    (applyOp (.opSubmit "A" .NORMAL (.ok 2) 2) c6_s1).tasks_.length = 2 ∧
    heapGet (applyOp (.opSubmit "A" .NORMAL (.ok 2) 2) c6_s1) 0 = heapGet c6_s1 0 :=
  c6_duplicate_id_amended c6_s1 "A" .NORMAL (.ok 2) 2 0 (by decide) (by decide) (by decide)

/-- C6 counterexample: the second submit with the already-live id "A"
succeeds (the claim requires failure with DUPLICATE_ID), the queue grows to
two entries (the claim requires it unchanged) and the registry now maps "A"
to the new record (the claim requires the existing entry kept). -/
theorem c6_counterexample :
    submitOk c6_s1 "A" .NORMAL (.ok 2) 2 = true ∧
    (applyOp (.opSubmit "A" .NORMAL (.ok 2) 2) c6_s1).tasks_.length = 2 ∧
    regLookup (applyOp (.opSubmit "A" .NORMAL (.ok 2) 2) c6_s1).task_infos_ "A"
      ≠ some 0 := by
  decide

/-- C9 (amended): the constructor validates nothing: for every worker count
n — including 0 — it returns a live pool with n workers, n in the
statistics, and no shutdown flag set.  There is no INVALID_CONFIG path. -/
theorem c9_ctor_no_validation (n t0 : Nat) :
    (init n t0).workers_ = n ∧
    (init n t0).stats_.thread_count = n ∧
    (init n t0).stop_ = false ∧
    (init n t0).force_stop_ = false ∧
    (init n t0).tasks_ = [] :=
  ⟨rfl, rfl, rfl, rfl, rfl⟩

/-- C9 counterexample: constructing with 0 workers is not rejected — a pool
with zero worker threads is created, live and accepting. -/
theorem c9_counterexample :
    (init 0 0).workers_ = 0 ∧
    (init 0 0).stats_.thread_count = 0 ∧
    (init 0 0).stop_ = false ∧
    submitOk (init 0 0) "x" .NORMAL (.ok 1) 1 = true := by
  decide

end Sdk

namespace Sdk

open ThreadPool

lemma popMax_pair (a b : Task) :
    popMax [a, b] = if Task.lt a b then some (b, [a]) else some (a, [b]) := rfl

/-- The pool after two submits that use the same caller-supplied id. -/
def c10_s2 (n t0 : Nat) (id : String) (p1 p2 : TaskPriority) (w1 w2 : WorkResult)
    (t1 t2 : Nat) : PoolState :=
  applyOp (.opSubmit id p2 w2 t2) (applyOp (.opSubmit id p1 w1 t1) (init n t0))

/-- The same pool after two further worker iterations. -/
def c10_s4 (n t0 : Nat) (id : String) (p1 p2 : TaskPriority) (w1 w2 : WorkResult)
    (t1 t2 a1 b1 c1 d1 a2 b2 c2 d2 : Nat) : PoolState :=
  applyOp (.opWorkerStep a2 b2 c2 d2)
    (applyOp (.opWorkerStep a1 b1 c1 d1) (c10_s2 n t0 id p1 p2 w1 w2 t1 t2))

/-- The pool after the first of the two same-id submits. -/
def c10_S1 (n t0 : Nat) (id : String) (p1 : TaskPriority) (w1 : WorkResult)
    (t1 : Nat) : PoolState :=
  { heap := [mkTaskInfo id p1 t1]
    tasks_ := [{ id := id, priority := p1, submit_time := t1, infoRef := 0, work := w1 }]
    task_infos_ := [(id, 0)]
    stop_ := false
    force_stop_ := false
    active_threads_ := 0
    workers_ := n
    stats_ :=
      { thread_count := n, active_threads := 0, pending_tasks := 0,
        completed_tasks := 0, failed_tasks := 0,
        average_task_duration_ms := 0, start_time := t0 } }

lemma c10_s2_eq (n t0 : Nat) (id : String) (p1 p2 : TaskPriority) (w1 w2 : WorkResult)
    (t1 t2 : Nat) :
    c10_s2 n t0 id p1 p2 w1 w2 t1 t2 =
      { heap := [mkTaskInfo id p1 t1, mkTaskInfo id p2 t2]
        tasks_ := [{ id := id, priority := p1, submit_time := t1, infoRef := 0, work := w1 },
                   { id := id, priority := p2, submit_time := t2, infoRef := 1, work := w2 }]
        task_infos_ := [(id, 1)]
        stop_ := false
        force_stop_ := false
        active_threads_ := 0
        workers_ := n
        stats_ :=
          { thread_count := n, active_threads := 0, pending_tasks := 0,
            completed_tasks := 0, failed_tasks := 0,
            average_task_duration_ms := 0, start_time := t0 } } := by
  have e1 := submit_ok (init n t0) rfl id p1 w1 t1
  have e1' : applyOp (.opSubmit id p1 w1 t1) (init n t0) = c10_S1 n t0 id p1 w1 t1 := by
    simp only [applyOp, e1]
    simp [init, regInsert, c10_S1]
  unfold c10_s2
  rw [e1']
  have e2 := submit_ok (c10_S1 n t0 id p1 w1 t1) rfl id p2 w2 t2
  simp only [applyOp, e2]
  simp [regInsert, mkTaskInfo, c10_S1]

/-- C10: a second submit reusing a live caller-supplied id succeeds; both
wrapper tasks sit in the queue (each holding its own closure and record);
the registry binding for the id is overwritten to the second record, so
`getTaskInfos` reports exactly the second record; and after two worker
iterations both records have been executed to COMPLETED while status
queries continue to see only the second one. -/
theorem c10_duplicate_submit_overwrite (n t0 : Nat) (id : String) (p1 p2 : TaskPriority)
    (w1 w2 : WorkResult) (t1 t2 a1 b1 c1 d1 a2 b2 c2 d2 : Nat) :
    submitOk (applyOp (.opSubmit id p1 w1 t1) (init n t0)) id p2 w2 t2 = true ∧
    (c10_s2 n t0 id p1 p2 w1 w2 t1 t2).tasks_ =
      [{ id := id, priority := p1, submit_time := t1, infoRef := 0, work := w1 },
       { id := id, priority := p2, submit_time := t2, infoRef := 1, work := w2 }] ∧
    regLookup (c10_s2 n t0 id p1 p2 w1 w2 t1 t2).task_infos_ id = some 1 ∧
    getTaskInfos (c10_s2 n t0 id p1 p2 w1 w2 t1 t2) =
      [heapGet (c10_s2 n t0 id p1 p2 w1 w2 t1 t2) 1] ∧
    (heapGet (c10_s4 n t0 id p1 p2 w1 w2 t1 t2 a1 b1 c1 d1 a2 b2 c2 d2) 0).status
      = .COMPLETED ∧
    (heapGet (c10_s4 n t0 id p1 p2 w1 w2 t1 t2 a1 b1 c1 d1 a2 b2 c2 d2) 1).status
      = .COMPLETED ∧
    getTaskInfos (c10_s4 n t0 id p1 p2 w1 w2 t1 t2 a1 b1 c1 d1 a2 b2 c2 d2) =
      [heapGet (c10_s4 n t0 id p1 p2 w1 w2 t1 t2 a1 b1 c1 d1 a2 b2 c2 d2) 1] := by
  have hs2 := c10_s2_eq n t0 id p1 p2 w1 w2 t1 t2
  have hsubok : submitOk (applyOp (.opSubmit id p1 w1 t1) (init n t0)) id p2 w2 t2
      = true := by
    have e1 := submit_ok (init n t0) rfl id p1 w1 t1
    simp only [applyOp, e1]
    unfold submitOk
    rw [submit_ok _ rfl]
  have hrun :
      (heapGet (c10_s4 n t0 id p1 p2 w1 w2 t1 t2 a1 b1 c1 d1 a2 b2 c2 d2) 0).status
          = .COMPLETED ∧
      (heapGet (c10_s4 n t0 id p1 p2 w1 w2 t1 t2 a1 b1 c1 d1 a2 b2 c2 d2) 1).status
          = .COMPLETED ∧
      getTaskInfos (c10_s4 n t0 id p1 p2 w1 w2 t1 t2 a1 b1 c1 d1 a2 b2 c2 d2) =
        [heapGet (c10_s4 n t0 id p1 p2 w1 w2 t1 t2 a1 b1 c1 d1 a2 b2 c2 d2) 1] := by
    unfold c10_s4
    rw [hs2]
    by_cases hlt : Task.lt
        { id := id, priority := p1, submit_time := t1, infoRef := 0, work := w1 }
        { id := id, priority := p2, submit_time := t2, infoRef := 1, work := w2 } = true
    · simp only [applyOp]
      rw [workerStep_run a1 b1 c1 d1 (by rfl)
        (by rw [popMax_pair, if_pos hlt])]
      rw [workerStep_run a2 b2 c2 d2 (by rfl) (by rfl)]
      exact ⟨rfl, rfl, rfl⟩
    · simp only [applyOp]
      rw [workerStep_run a1 b1 c1 d1 (by rfl)
        (by rw [popMax_pair, if_neg (by simpa using hlt)])]
      rw [workerStep_run a2 b2 c2 d2 (by rfl) (by rfl)]
      exact ⟨rfl, rfl, rfl⟩
  exact ⟨hsubok, by rw [hs2], by rw [hs2]; simp [regLookup],
    by rw [hs2]; rfl, hrun.1, hrun.2.1, hrun.2.2⟩

end Sdk

namespace Sdk

open ThreadPool

/-- A one-worker pool with a single pending task "X". -/
def c7_s1 : PoolState := applyOp (.opSubmit "X" .NORMAL (.ok 1) 4) (init 1 0)

/-- The same pool after `cancelTask("X")` moved the record to CANCELLED. -/
def c7_s2 : PoolState := (cancelTask c7_s1 "X").1

/-- C7 counterexample: a record in the terminal state CANCELLED is changed
again — the worker dequeues the cancelled task and executes it, leaving the
record COMPLETED.  This refutes "once a task has entered a terminal state
no operation ever changes its state again". -/
theorem c7_counterexample :
    (heapGet c7_s2 0).status = .CANCELLED ∧
    (heapGet (workerStep c7_s2 5 6 7 8).1 0).status = .COMPLETED := by
  decide

/-- C7 witness: the amended transition theorem applied to the worker step
that executes the cancelled task "X". -/
theorem c7_status_machine_witness :
    Relation.ReflTransGen StatusEdge (heapGet c7_s2 0).status
      (heapGet (applyOp (.opWorkerStep 5 6 7 8) c7_s2) 0).status :=
  c7_status_machine c7_s2 (.opWorkerStep 5 6 7 8) (by decide) 0

end Sdk
